import Mathlib

/-!
Verification of the image-resizer benchmark harness (src/benchmark.js) and
the upload endpoint (src/unnamed/part_000).

Real-valued quantities (milliseconds, megabytes, percentages) are modelled
as rationals, so every arithmetic step of the source is exact.  Stateful
JavaScript classes become explicit state records with state-passing
functions; asynchronous races become an explicit boolean recording which
side of the race resolved first.
-/

namespace ImageResizer

/-! ## Safety limits (SAFETY_LIMITS in src/benchmark.js) -/

def maxConcurrentRequests : Nat := 50

def maxTimePerScenarioSec : Nat := 300

/-! ## Resource monitor data model (class ResourceMonitor, src/benchmark.js)

A Sample is one recorded observation: timestamp in ms, cpu percentage,
and the four memory readings converted to megabytes. -/

structure Memory where
  rss : ℚ
  heapTotal : ℚ
  heapUsed : ℚ
  external : ℚ
deriving Repr, DecidableEq

structure Sample where
  timestamp : ℚ
  cpu : ℚ
  memory : Memory
deriving Repr, DecidableEq

structure Metrics where
  cpu : ℚ
  memory : Memory
deriving Repr, DecidableEq

def zeroMemory : Memory := ⟨0, 0, 0, 0⟩

def zeroMetrics : Metrics := ⟨0, zeroMemory⟩

/-- The structure-wise sum reduce in getResults (lines 85-95 of
src/benchmark.js), with the all-zero accumulator as initial value. -/
def sumMetrics (samples : List Sample) : Metrics :=
  samples.foldl
    (fun acc s =>
      ⟨acc.cpu + s.cpu,
       ⟨acc.memory.rss + s.memory.rss,
        acc.memory.heapTotal + s.memory.heapTotal,
        acc.memory.heapUsed + s.memory.heapUsed,
        acc.memory.external + s.memory.external⟩⟩)
    zeroMetrics

/-- The structure-wise Math.max reduce in getResults (lines 100-110 of
src/benchmark.js), with the all-zero accumulator as initial value. -/
def peakMetrics (samples : List Sample) : Metrics :=
  samples.foldl
    (fun acc s =>
      ⟨max acc.cpu s.cpu,
       ⟨max acc.memory.rss s.memory.rss,
        max acc.memory.heapTotal s.memory.heapTotal,
        max acc.memory.heapUsed s.memory.heapUsed,
        max acc.memory.external s.memory.external⟩⟩)
    zeroMetrics

/-- getResults returns a bare zero metric set when no samples exist, and
otherwise an average/peak summary together with the raw sample list; the
two shapes are distinct constructors, as they carry different fields. -/
inductive MonitorResults where
  | noSamples (metrics : Metrics)
  | summary (average : Metrics) (peak : Metrics) (samples : List Sample)
deriving Repr, DecidableEq

/-- ResourceMonitor.getResults (lines 79-125 of src/benchmark.js). -/
def getResults (samples : List Sample) : MonitorResults :=
  if samples.length = 0 then
    .noSamples zeroMetrics
  else
    let sum := sumMetrics samples
    let count : ℚ := samples.length
    .summary
      ⟨sum.cpu / count,
       ⟨sum.memory.rss / count,
        sum.memory.heapTotal / count,
        sum.memory.heapUsed / count,
        sum.memory.external / count⟩⟩
      (peakMetrics samples)
      samples

/-! ### Fold lemmas relating the structure-wise reduces to per-field folds -/

theorem sumMetrics_aux (samples : List Sample) (acc : Metrics) :
    samples.foldl
      (fun acc s =>
        (⟨acc.cpu + s.cpu,
         ⟨acc.memory.rss + s.memory.rss,
          acc.memory.heapTotal + s.memory.heapTotal,
          acc.memory.heapUsed + s.memory.heapUsed,
          acc.memory.external + s.memory.external⟩⟩ : Metrics))
      acc
    = ⟨acc.cpu + (samples.map Sample.cpu).sum,
       ⟨acc.memory.rss + (samples.map (fun s => s.memory.rss)).sum,
        acc.memory.heapTotal + (samples.map (fun s => s.memory.heapTotal)).sum,
        acc.memory.heapUsed + (samples.map (fun s => s.memory.heapUsed)).sum,
        acc.memory.external + (samples.map (fun s => s.memory.external)).sum⟩⟩ := by
  induction samples generalizing acc with
  | nil => simp
  | cons s rest ih =>
    simp only [List.foldl_cons, List.map_cons, List.sum_cons, ih]
    congr 1
    · ring
    congr 1 <;> ring

theorem sumMetrics_fields (samples : List Sample) :
    sumMetrics samples
    = ⟨(samples.map Sample.cpu).sum,
       ⟨(samples.map (fun s => s.memory.rss)).sum,
        (samples.map (fun s => s.memory.heapTotal)).sum,
        (samples.map (fun s => s.memory.heapUsed)).sum,
        (samples.map (fun s => s.memory.external)).sum⟩⟩ := by
  have h := sumMetrics_aux samples zeroMetrics
  simpa [sumMetrics, zeroMetrics, zeroMemory] using h

theorem peakMetrics_aux (samples : List Sample) (acc : Metrics) :
    samples.foldl
      (fun acc s =>
        (⟨max acc.cpu s.cpu,
         ⟨max acc.memory.rss s.memory.rss,
          max acc.memory.heapTotal s.memory.heapTotal,
          max acc.memory.heapUsed s.memory.heapUsed,
          max acc.memory.external s.memory.external⟩⟩ : Metrics))
      acc
    = ⟨(samples.map Sample.cpu).foldl max acc.cpu,
       ⟨(samples.map (fun s => s.memory.rss)).foldl max acc.memory.rss,
        (samples.map (fun s => s.memory.heapTotal)).foldl max acc.memory.heapTotal,
        (samples.map (fun s => s.memory.heapUsed)).foldl max acc.memory.heapUsed,
        (samples.map (fun s => s.memory.external)).foldl max acc.memory.external⟩⟩ := by
  induction samples generalizing acc with
  | nil => simp
  | cons s rest ih => simp only [List.foldl_cons, List.map_cons, ih]

theorem peakMetrics_fields (samples : List Sample) :
    peakMetrics samples
    = ⟨(samples.map Sample.cpu).foldl max 0,
       ⟨(samples.map (fun s => s.memory.rss)).foldl max 0,
        (samples.map (fun s => s.memory.heapTotal)).foldl max 0,
        (samples.map (fun s => s.memory.heapUsed)).foldl max 0,
        (samples.map (fun s => s.memory.external)).foldl max 0⟩⟩ := by
  have h := peakMetrics_aux samples zeroMetrics
  simpa [peakMetrics, zeroMetrics, zeroMemory] using h

/-! ### Mean at most max, for folds with a zero floor -/

theorem foldl_max_init_le (l : List ℚ) (a b : ℚ) (h : a ≤ b) :
    l.foldl max a ≤ l.foldl max b := by
  induction l generalizing a b with
  | nil => simpa using h
  | cons x xs ih =>
    simp only [List.foldl_cons]
    exact ih _ _ (max_le_max_right x h)

theorem le_foldl_max (l : List ℚ) (a : ℚ) : a ≤ l.foldl max a := by
  induction l generalizing a with
  | nil => simp
  | cons x xs ih =>
    simp only [List.foldl_cons]
    exact le_trans (le_max_left a x) (ih _)

theorem mem_le_foldl_max (l : List ℚ) (a x : ℚ) (hx : x ∈ l) :
    x ≤ l.foldl max a := by
  induction l generalizing a with
  | nil => cases hx
  | cons y ys ih =>
    simp only [List.foldl_cons]
    rcases List.mem_cons.mp hx with rfl | hmem
    · exact le_trans (le_max_right a x) (le_foldl_max ys _)
    · exact ih _ hmem

theorem mean_le_foldl_max (l : List ℚ) (hne : l ≠ []) :
    l.sum / l.length ≤ l.foldl max 0 := by
  have hlen : 0 < (l.length : ℚ) := by
    have := List.length_pos.mpr hne
    exact_mod_cast this
  rw [div_le_iff₀ hlen]
  have hsum : l.sum ≤ l.length • (l.foldl max 0) :=
    List.sum_le_card_nsmul l _ (fun x hx => mem_le_foldl_max l 0 x hx)
  calc l.sum ≤ l.length • (l.foldl max 0) := hsum
    _ = l.foldl max 0 * l.length := by
        rw [nsmul_eq_mul]; ring

/-! ### Claims C6 and C7 -/

/-- C7: on an empty sample sequence, getResults returns the all-zero metric
set (cpu 0 and all four memory fields 0) without any division; the
reduction is total, never throwing. -/
theorem getResults_empty : getResults [] = .noSamples zeroMetrics := rfl

theorem getResults_ne_nil (samples : List Sample) (hne : samples ≠ []) :
    getResults samples
    = .summary
        ⟨(sumMetrics samples).cpu / samples.length,
         ⟨(sumMetrics samples).memory.rss / samples.length,
          (sumMetrics samples).memory.heapTotal / samples.length,
          (sumMetrics samples).memory.heapUsed / samples.length,
          (sumMetrics samples).memory.external / samples.length⟩⟩
        (peakMetrics samples)
        samples := by
  have hlen : samples.length ≠ 0 := fun h => hne (List.length_eq_zero.mp h)
  simp [getResults, hlen]

theorem map_ne_nil {α β : Type} (f : α → β) (l : List α) (h : l ≠ []) :
    l.map f ≠ [] := by
  cases l with
  | nil => exact absurd rfl h
  | cons x xs => simp

/-- C6: for every non-empty sample sequence, the summary returned by
getResults satisfies peak.cpu at least average.cpu, and each of the four
peak memory fields is at least the corresponding average memory field. -/
theorem getResults_peak_ge_average (samples : List Sample)
    (average peak : Metrics) (raw : List Sample)
    (hne : samples ≠ [])
    (h : getResults samples = .summary average peak raw) :
    average.cpu ≤ peak.cpu
    ∧ average.memory.rss ≤ peak.memory.rss
    ∧ average.memory.heapTotal ≤ peak.memory.heapTotal
    ∧ average.memory.heapUsed ≤ peak.memory.heapUsed
    ∧ average.memory.external ≤ peak.memory.external := by
  rw [getResults_ne_nil samples hne] at h
  injection h with havg hpeak hraw
  subst havg
  subst hpeak
  rw [sumMetrics_fields, peakMetrics_fields]
  have hlen : ∀ f : Sample → ℚ, ((samples.map f).length : ℚ) = (samples.length : ℚ) := by
    intro f; rw [List.length_map]
  refine ⟨?_, ?_, ?_, ?_, ?_⟩ <;>
    simpa [hlen] using
      mean_le_foldl_max _ (map_ne_nil _ samples hne)

def samplesW : List Sample := [⟨0, 5, ⟨1, 2, 3, 4⟩⟩]

def metricsW : Metrics := ⟨5, ⟨1, 2, 3, 4⟩⟩

theorem getResultsW :
    getResults samplesW = .summary metricsW metricsW samplesW := by
  rw [getResults_ne_nil samplesW (by simp [samplesW])]
  norm_num [samplesW, metricsW, sumMetrics, peakMetrics, zeroMetrics, zeroMemory]

theorem getResults_peak_ge_average_witness :
    samplesW ≠ []
    ∧ getResults samplesW = .summary metricsW metricsW samplesW
    ∧ (metricsW.cpu ≤ metricsW.cpu
       ∧ metricsW.memory.rss ≤ metricsW.memory.rss
       ∧ metricsW.memory.heapTotal ≤ metricsW.memory.heapTotal
       ∧ metricsW.memory.heapUsed ≤ metricsW.memory.heapUsed
       ∧ metricsW.memory.external ≤ metricsW.memory.external) :=
  ⟨by simp [samplesW], getResultsW,
   getResults_peak_ge_average samplesW metricsW metricsW samplesW
     (by simp [samplesW]) getResultsW⟩

/-! ## Resource monitor sampling (constructor, start, sample in src/benchmark.js)

Ambient process metrics are abstracted as a Reading: the value of
performance.now() in milliseconds, the cumulative process CPU times in
microseconds, and the raw memory readings in bytes at one instant.  The
sample method consumes the Reading taken at the moment it runs. -/

structure CpuUsage where
  user : ℚ
  system : ℚ
deriving Repr, DecidableEq

structure MemUsage where
  rss : ℚ
  heapTotal : ℚ
  heapUsed : ℚ
  external : ℚ
deriving Repr, DecidableEq

structure Reading where
  now : ℚ
  cpu : CpuUsage
  mem : MemUsage
deriving Repr, DecidableEq

structure ResourceMonitor where
  cpuUsage : CpuUsage
  memUsage : MemUsage
  startTime : ℚ
  samples : List Sample
deriving Repr, DecidableEq

/-- ResourceMonitor.start (lines 33-43 of src/benchmark.js): reset the CPU
baseline, the memory baseline and the begin time from the current ambient
readings, and clear the sample sequence. -/
def ResourceMonitor.start (r : Reading) : ResourceMonitor :=
  ⟨r.cpu, r.mem, r.now, []⟩

/-- ResourceMonitor.sample (lines 45-65 of src/benchmark.js).  The CPU
delta is taken against the stored baseline, which is then advanced to the
current cumulative counters; elapsedMs is taken against startTime, which
is never advanced.  process.cpuUsage values are microseconds, so elapsedMs
is scaled by 1000 before dividing. -/
def ResourceMonitor.sample (st : ResourceMonitor) (cores : ℚ) (r : Reading) :
    ResourceMonitor :=
  let newCpuUser := r.cpu.user - st.cpuUsage.user
  let newCpuSystem := r.cpu.system - st.cpuUsage.system
  let elapsedMs := r.now - st.startTime
  let cpuUsagePercent := (newCpuUser + newCpuSystem) / (elapsedMs * 1000) * 100 / cores
  { st with
    samples := st.samples ++
      [⟨elapsedMs, cpuUsagePercent,
        ⟨r.mem.rss / (1024 * 1024),
         r.mem.heapTotal / (1024 * 1024),
         r.mem.heapUsed / (1024 * 1024),
         r.mem.external / (1024 * 1024)⟩⟩],
    cpuUsage := r.cpu }

/-- A run of the periodic timer: one sample call per ambient reading, in
order. -/
def runSamples (cores : ℚ) (st : ResourceMonitor) : List Reading → ResourceMonitor
  | [] => st
  | r :: rs => runSamples cores (st.sample cores r) rs

/-- The sample appended by one sample call, as a function of the state
fields it reads. -/
def mkSample (cores startTime : ℚ) (prev : CpuUsage) (r : Reading) : Sample :=
  ⟨r.now - startTime,
   ((r.cpu.user - prev.user) + (r.cpu.system - prev.system))
     / ((r.now - startTime) * 1000) * 100 / cores,
   ⟨r.mem.rss / (1024 * 1024),
    r.mem.heapTotal / (1024 * 1024),
    r.mem.heapUsed / (1024 * 1024),
    r.mem.external / (1024 * 1024)⟩⟩

/-- The sample sequence produced by a run of the timer, threading the CPU
baseline from reading to reading while the start time stays fixed. -/
def sampleTrace (cores startTime : ℚ) (prev : CpuUsage) : List Reading → List Sample
  | [] => []
  | r :: rs => mkSample cores startTime prev r :: sampleTrace cores startTime r.cpu rs

theorem sample_unfold (st : ResourceMonitor) (cores : ℚ) (r : Reading) :
    st.sample cores r
    = { st with
        samples := st.samples ++ [mkSample cores st.startTime st.cpuUsage r],
        cpuUsage := r.cpu } := rfl

theorem runSamples_samples (cores : ℚ) (st : ResourceMonitor) (rs : List Reading) :
    (runSamples cores st rs).samples
    = st.samples ++ sampleTrace cores st.startTime st.cpuUsage rs := by
  induction rs generalizing st with
  | nil => simp [runSamples, sampleTrace]
  | cons r rest ih =>
    simp only [runSamples, sampleTrace]
    rw [ih, sample_unfold]
    simp

theorem sampleTrace_get (cores startTime : ℚ) (rs : List Reading) :
    ∀ (p0 : Reading) (i : Nat) (prev cur : Reading),
      (p0 :: rs).get? i = some prev → rs.get? i = some cur →
      (sampleTrace cores startTime p0.cpu rs).get? i
        = some (mkSample cores startTime prev.cpu cur) := by
  induction rs with
  | nil => intro p0 i prev cur _ hcur; simp at hcur
  | cons r rest ih =>
    intro p0 i prev cur hprev hcur
    cases i with
    | zero =>
      simp only [List.get?_cons_zero, Option.some.injEq] at hprev hcur
      subst hprev; subst hcur
      rfl
    | succ j =>
      simp only [List.get?_cons_succ] at hprev hcur
      simpa [sampleTrace] using ih r j prev cur hprev hcur

/-! ### Claim C5 -/

/-- C5 amended: the CPU percentage recorded by the i-th sample call of a
monitoring run divides the CPU time accumulated since the previous sample
call (or since start for the first) by the wall time elapsed since start,
not by the wall time since the previous sample: with readings rs taken at
the successive sample calls after a start at reading r0, the previous
reading of rs[i] is (r0 :: rs)[i], and the denominator is anchored at
r0.now throughout. -/
theorem runSamples_cpu (cores : ℚ) (r0 : Reading) (rs : List Reading)
    (i : Nat) (prev cur : Reading)
    (hprev : (r0 :: rs).get? i = some prev)
    (hcur : rs.get? i = some cur) :
    ((runSamples cores (ResourceMonitor.start r0) rs).samples.get? i).map Sample.cpu
      = some (((cur.cpu.user - prev.cpu.user) + (cur.cpu.system - prev.cpu.system))
          / ((cur.now - r0.now) * 1000) * 100 / cores) := by
  rw [runSamples_samples]
  have hstart : (ResourceMonitor.start r0).samples = [] := rfl
  have h := sampleTrace_get cores (ResourceMonitor.start r0).startTime rs r0 i prev cur hprev hcur
  have hcpu : (ResourceMonitor.start r0).cpuUsage = r0.cpu := rfl
  rw [hstart, List.nil_append, hcpu, h]
  rfl

/-- Definition following the claim wording for C5: CPU percentage computed
from the CPU deltas and the elapsed time, both measured since the previous
sample, over the logical core count. -/
def claimedCpuPercent (userDelta systemDelta elapsedMicros coreCount : ℚ) : ℚ :=
  (userDelta + systemDelta) / elapsedMicros / coreCount * 100

def memZeroR : MemUsage := ⟨0, 0, 0, 0⟩

def r0c : Reading := ⟨0, ⟨0, 0⟩, memZeroR⟩

def r1c : Reading := ⟨1000, ⟨500000, 0⟩, memZeroR⟩

def r2c : Reading := ⟨2000, ⟨1000000, 0⟩, memZeroR⟩

/-- C5 counterexample: a run with one core, started at time 0 with zero CPU
counters, sampling at 1000 ms (cumulative user CPU 500000 us) and at
2000 ms (cumulative user CPU 1000000 us).  The second recorded sample has
cpu 25, while the formula of the claim, with CPU delta and elapsed time
both measured since the previous sample, gives 50. -/
theorem runSamples_cpu_counterexample :
    ((runSamples 1 (ResourceMonitor.start r0c) [r1c, r2c]).samples.get? 1).map Sample.cpu
        = some 25
    ∧ claimedCpuPercent (r2c.cpu.user - r1c.cpu.user) (r2c.cpu.system - r1c.cpu.system)
        ((r2c.now - r1c.now) * 1000) 1 = 50
    ∧ (25 : ℚ) ≠ 50 := by
  refine ⟨?_, ?_, by norm_num⟩
  · rw [runSamples_cpu 1 r0c [r1c, r2c] 1 r1c r2c rfl rfl]
    norm_num [r0c, r1c, r2c]
  · norm_num [claimedCpuPercent, r1c, r2c]

/-- Witness for the amended C5 theorem at the concrete two-sample run. -/
theorem runSamples_cpu_witness :
    (r0c :: [r1c, r2c]).get? 1 = some r1c
    ∧ [r1c, r2c].get? 1 = some r2c
    ∧ ((runSamples 1 (ResourceMonitor.start r0c) [r1c, r2c]).samples.get? 1).map Sample.cpu
        = some (((r2c.cpu.user - r1c.cpu.user) + (r2c.cpu.system - r1c.cpu.system))
            / ((r2c.now - r0c.now) * 1000) * 100 / 1) :=
  ⟨rfl, rfl, runSamples_cpu 1 r0c [r1c, r2c] 1 r1c r2c rfl rfl⟩

/-! ## Load driver (sendImageResizeRequest and runConcurrentRequests,
src/benchmark.js)

The HTTP exchange is abstracted as an HttpResult: either the axios post
resolved with a response body carrying optional timings and sizes fields,
or it rejected with an error message.  The wall-clock instants surrounding
the exchange are passed in explicitly. -/

structure Timings where
  totalProcessingTime : Option ℚ
deriving Repr, DecidableEq

structure Sizes where
  totalOriginalSize : ℚ
  totalProcessedSize : List (String × ℚ)
deriving Repr, DecidableEq

structure RequestOutcome where
  success : Bool
  duration : ℚ
  timings : Option Timings
  sizes : Option Sizes
  error : Option String
deriving Repr, DecidableEq

inductive HttpResult where
  | ok (timings : Option Timings) (sizes : Option Sizes)
  | err (message : String)
deriving Repr, DecidableEq

/-- sendImageResizeRequest (lines 189-227 of src/benchmark.js): numImages
copies of the payload are appended to the form; on a resolved response the
outcome carries the server timings and sizes, on a rejection it carries
the error message; the duration is measured either way, and both paths
return an outcome rather than throwing. -/
def sendImageResizeRequest (numImages : Nat) (startTime endTime : ℚ)
    (result : HttpResult) : RequestOutcome :=
  match result with
  | .ok t s =>
      { success := true, duration := endTime - startTime,
        timings := t, sizes := s, error := none }
  | .err m =>
      { success := false, duration := endTime - startTime,
        timings := none, sizes := none, error := some m }

/-- C8: sendImageResizeRequest is total over both branches of the HTTP
exchange: a network or server error yields a failed outcome with the
measured duration and the error message preserved, and a success yields a
successful outcome with the measured duration and the server-reported
timings and sizes; neither branch escapes the function. -/
theorem sendImageResizeRequest_total (numImages : Nat) (startTime endTime : ℚ)
    (t : Option Timings) (s : Option Sizes) (m : String) :
    sendImageResizeRequest numImages startTime endTime (.err m)
      = { success := false, duration := endTime - startTime,
          timings := none, sizes := none, error := some m }
    ∧ sendImageResizeRequest numImages startTime endTime (.ok t s)
      = { success := true, duration := endTime - startTime,
          timings := t, sizes := s, error := none } :=
  ⟨rfl, rfl⟩

/-- The contribution of one successful outcome to the processing-time sum
(lines 310-315 of src/benchmark.js): the reported totalProcessingTime when
the timings object and the field are present, otherwise nothing is added.
A reported value of 0 is skipped by the truthiness test in the source, but
adding 0 and skipping coincide. -/
def procTime (r : RequestOutcome) : ℚ :=
  match r.timings with
  | some t => t.totalProcessingTime.getD 0
  | none => 0

structure ConcurrentRunResult where
  numDispatched : Nat
  clampNotice : Bool
  results : List RequestOutcome
  safetyTriggered : Bool
  avgDuration : Option ℚ
  avgProcessingTime : Option ℚ
deriving Repr, DecidableEq

/-- runConcurrentRequests (lines 260-342 of src/benchmark.js).  The
requested count is clamped to maxConcurrentRequests with a logged notice
when the clamp engages; the clamped number of requests is dispatched
before the race; timeoutFirst records whether the per-scenario timer beat
the joint settlement of the batch.  outcomeOf gives the outcome of the
i-th dispatched request.  On timeout the catch block returns an empty
result list with safetyTriggered set; otherwise the derived averages are
computed only when at least one outcome succeeded, dividing by the number
of successful outcomes. -/
def runConcurrentRequests (numRequests : Nat) (timeoutFirst : Bool)
    (outcomeOf : Nat → RequestOutcome) : ConcurrentRunResult :=
  let adjustedNumRequests := min numRequests maxConcurrentRequests
  let clampNotice := decide (adjustedNumRequests < numRequests)
  let requests := (List.range adjustedNumRequests).map outcomeOf
  if timeoutFirst then
    { numDispatched := requests.length, clampNotice := clampNotice,
      results := [], safetyTriggered := true,
      avgDuration := none, avgProcessingTime := none }
  else
    let successfulResults := requests.filter (fun r => r.success)
    { numDispatched := requests.length, clampNotice := clampNotice,
      results := requests, safetyTriggered := false,
      avgDuration :=
        if 0 < successfulResults.length then
          some ((successfulResults.map RequestOutcome.duration).sum
                  / successfulResults.length)
        else none,
      avgProcessingTime :=
        if 0 < successfulResults.length then
          some ((successfulResults.map procTime).sum / successfulResults.length)
        else none }

/-- C2: runConcurrentRequests dispatches exactly min(numRequests,
maxConcurrentRequests) requests, whether or not the scenario later times
out, and the clamping notice is logged exactly when numRequests exceeds
maxConcurrentRequests. -/
theorem runConcurrentRequests_clamp (numRequests : Nat) (timeoutFirst : Bool)
    (outcomeOf : Nat → RequestOutcome) :
    (runConcurrentRequests numRequests timeoutFirst outcomeOf).numDispatched
        = min numRequests maxConcurrentRequests
    ∧ ((runConcurrentRequests numRequests timeoutFirst outcomeOf).clampNotice = true
        ↔ maxConcurrentRequests < numRequests) := by
  have hmin : min numRequests maxConcurrentRequests < numRequests
      ↔ maxConcurrentRequests < numRequests := by
    omega
  cases timeoutFirst <;>
    simp [runConcurrentRequests, hmin]

/-- C3: when the batch settles before the per-scenario timer the result
list holds exactly the clamped number of outcomes and the scenario is not
marked failed; when the timer fires first the result list is empty and
safetyTriggered marks the scenario failed. -/
theorem runConcurrentRequests_race (numRequests : Nat)
    (outcomeOf : Nat → RequestOutcome) :
    ((runConcurrentRequests numRequests false outcomeOf).results.length
        = min numRequests maxConcurrentRequests
      ∧ (runConcurrentRequests numRequests false outcomeOf).safetyTriggered = false)
    ∧ ((runConcurrentRequests numRequests true outcomeOf).results = []
      ∧ (runConcurrentRequests numRequests true outcomeOf).safetyTriggered = true) := by
  refine ⟨⟨?_, ?_⟩, ?_, ?_⟩ <;> simp [runConcurrentRequests]

/-! ### Claim C9 -/

/-- Definition following the claim wording for C9: the mean of the
server-reported totalProcessingTime values over the successful outcomes
that report one, suppressed when there are none. -/
def claimedMeanProcessingTime (results : List RequestOutcome) : Option ℚ :=
  let reporting := results.filter
    (fun r => r.success &&
      (match r.timings with
       | some t => t.totalProcessingTime.isSome
       | none => false))
  if 0 < reporting.length then
    some ((reporting.map procTime).sum / reporting.length)
  else none

/-- Sum of the server-reported processing times over a list of outcomes,
with outcomes that report none contributing nothing. -/
def sumReportedProcessingTime : List RequestOutcome → ℚ
  | [] => 0
  | r :: rest =>
      (match r.timings with
       | some t =>
           match t.totalProcessingTime with
           | some v => v
           | none => 0
       | none => 0)
      + sumReportedProcessingTime rest

theorem sumReportedProcessingTime_eq (l : List RequestOutcome) :
    sumReportedProcessingTime l = (l.map procTime).sum := by
  induction l with
  | nil => rfl
  | cons r rest ih =>
    simp only [sumReportedProcessingTime, List.map_cons, List.sum_cons, ih]
    congr 1
    cases hr : r.timings with
    | none => simp [procTime, hr]
    | some t =>
      simp only [procTime, hr]
      cases t.totalProcessingTime <;> simp

/-- C9 amended: the mean processing time computed by runConcurrentRequests
is the sum of the server-reported totalProcessingTime values over ALL
successful outcomes (outcomes that report none contribute nothing) divided
by the number of successful outcomes, not the mean over only the outcomes
that report one; both derived averages are suppressed when no outcome
succeeded, and the scenario is not marked failed in that case. -/
theorem runConcurrentRequests_avgProcessingTime (numRequests : Nat)
    (outcomeOf : Nat → RequestOutcome) :
    ((runConcurrentRequests numRequests false outcomeOf).avgProcessingTime
      = (if 0 < ((runConcurrentRequests numRequests false outcomeOf).results.filter
                   (fun r => r.success)).length then
          some (sumReportedProcessingTime
                  ((runConcurrentRequests numRequests false outcomeOf).results.filter
                    (fun r => r.success))
                / ((runConcurrentRequests numRequests false outcomeOf).results.filter
                    (fun r => r.success)).length)
        else none))
    ∧ ((runConcurrentRequests numRequests false outcomeOf).avgDuration
      = (if 0 < ((runConcurrentRequests numRequests false outcomeOf).results.filter
                   (fun r => r.success)).length then
          some ((((runConcurrentRequests numRequests false outcomeOf).results.filter
                    (fun r => r.success)).map RequestOutcome.duration).sum
                / ((runConcurrentRequests numRequests false outcomeOf).results.filter
                    (fun r => r.success)).length)
        else none))
    ∧ (runConcurrentRequests numRequests false outcomeOf).safetyTriggered = false := by
  refine ⟨?_, ?_, ?_⟩ <;>
    simp [runConcurrentRequests, sumReportedProcessingTime_eq]

def outcomeC9 : Nat → RequestOutcome := fun i =>
  if i = 0 then
    { success := true, duration := 1, timings := some ⟨some 100⟩,
      sizes := none, error := none }
  else
    { success := true, duration := 1, timings := none,
      sizes := none, error := none }

/-- C9 counterexample: two successful outcomes, only the first reporting a
totalProcessingTime of 100.  The source divides the sum 100 by all 2
successful outcomes and reports 50, while the mean over the successful
outcomes that report one is 100. -/
theorem runConcurrentRequests_avgProcessingTime_counterexample :
    (runConcurrentRequests 2 false outcomeC9).avgProcessingTime = some 50
    ∧ claimedMeanProcessingTime (runConcurrentRequests 2 false outcomeC9).results
        = some 100
    ∧ some (50 : ℚ) ≠ some 100 := by
  have hrange : List.range 2 = [0, 1] := rfl
  refine ⟨?_, ?_, by norm_num⟩
  · norm_num [runConcurrentRequests, maxConcurrentRequests, hrange, outcomeC9, procTime]
  · norm_num [runConcurrentRequests, claimedMeanProcessingTime, maxConcurrentRequests,
      hrange, outcomeC9, procTime]

/-! ## Test payload construction (createTestImageBuffer, src/benchmark.js) -/

/-- createTestImageBuffer (lines 142-186 of src/benchmark.js), over the
bytes of the seed image read from disk.  requiredCopies is
Math.ceil(targetSizeBytes / sampleImage.length); the seed is concatenated
that many times, trimmed when over the target and padded with zero bytes
when under it.  When the seed buffer is empty and the target positive,
Math.ceil of a division by zero is Infinity in the source and the copy
loop never exits, so no buffer is ever returned: that case is modelled as
none.  The missing-file check calls process.exit before any of this and is
outside the model. -/
def createTestImageBuffer (sampleImage : List Nat) (sizeMB : Nat) : Option (List Nat) :=
  let targetSizeBytes := sizeMB * 1024 * 1024
  if sampleImage.length = 0 ∧ 0 < targetSizeBytes then
    none
  else
    let requiredCopies := (targetSizeBytes + sampleImage.length - 1) / sampleImage.length
    let buffer := (List.replicate requiredCopies sampleImage).join
    let buffer := if targetSizeBytes < buffer.length then buffer.take targetSizeBytes else buffer
    let buffer :=
      if buffer.length < targetSizeBytes then
        buffer ++ List.replicate (targetSizeBytes - buffer.length) 0
      else buffer
    some buffer

theorem le_ceil_mul (t len : Nat) (hlen : 0 < len) :
    t ≤ (t + len - 1) / len * len := by
  have hd := Nat.div_add_mod (t + len - 1) len
  have hm : (t + len - 1) % len < len := Nat.mod_lt _ hlen
  rw [Nat.mul_comm]
  generalize hM : len * ((t + len - 1) / len) = M at hd
  omega

theorem join_replicate_length (n : Nat) (l : List Nat) :
    ((List.replicate n l).join).length = n * l.length := by
  induction n with
  | zero => simp
  | succ k ih =>
    simp only [List.replicate_succ, List.join_cons, List.length_append, ih]
    ring

/-- C4 counterexample: with an empty seed buffer and a positive target
size, the source computes Math.ceil(targetSizeBytes / 0) = Infinity and
the concatenation loop never terminates, so no buffer is returned at all,
let alone one within tolerance of the target size. -/
theorem createTestImageBuffer_empty_seed :
    createTestImageBuffer [] 1 = none := rfl

/-- C4 amended: for every target size and every NON-EMPTY seed buffer
(seed larger than the target, seed evenly dividing the target, or seed
otherwise), createTestImageBuffer terminates and returns a buffer whose
length is exactly sizeMB * 1024 * 1024 bytes, hence within any fixed
tolerance of the target. -/
theorem createTestImageBuffer_length (sampleImage : List Nat) (sizeMB : Nat)
    (hne : sampleImage ≠ []) :
    ∃ buffer, createTestImageBuffer sampleImage sizeMB = some buffer
      ∧ buffer.length = sizeMB * 1024 * 1024 := by
  have hlen : 0 < sampleImage.length := List.length_pos.mpr hne
  have hlen0 : ¬(sampleImage.length = 0 ∧ 0 < sizeMB * 1024 * 1024) := by
    intro ⟨h0, _⟩; omega
  simp only [createTestImageBuffer, if_neg hlen0]
  set target := sizeMB * 1024 * 1024 with htarget
  set copies := (target + sampleImage.length - 1) / sampleImage.length with hcopies
  have hjoin : ((List.replicate copies sampleImage).join).length
      = copies * sampleImage.length := join_replicate_length _ _
  have hge : target ≤ copies * sampleImage.length := le_ceil_mul _ _ hlen
  by_cases hover : target < ((List.replicate copies sampleImage).join).length
  · have htake : (((List.replicate copies sampleImage).join).take target).length = target := by
      rw [List.length_take]
      omega
    rw [if_pos hover, if_neg (by omega)]
    exact ⟨_, rfl, htake⟩
  · have heq : ((List.replicate copies sampleImage).join).length = target := by omega
    rw [if_neg hover, if_neg (by omega)]
    exact ⟨_, rfl, heq⟩

/-- Witness for the amended C4 theorem: a three-byte seed and a one
megabyte target. -/
theorem createTestImageBuffer_length_witness :
    ([1, 2, 3] : List Nat) ≠ []
    ∧ ∃ buffer, createTestImageBuffer [1, 2, 3] 1 = some buffer
        ∧ buffer.length = 1 * 1024 * 1024 :=
  ⟨by decide, createTestImageBuffer_length [1, 2, 3] 1 (by decide)⟩

/-! ## Upload endpoint medium-quality target (processImage, src/unnamed/part_000) -/

/-- The medium-quality JPEG target from processImage in
src/unnamed/part_000 (line 56):
Math.min(10, Math.max(30, Math.floor(60 / originalSizeKB * 100))). -/
def mediumTargetQuality (originalSizeKB : ℚ) : ℤ :=
  min 10 (max 30 ⌊60 / originalSizeKB * 100⌋)

/-- C10: the medium-quality target is the constant 10 for every file size:
the inner Math.max pins the value at 30 or above, and the outer Math.min
with the reversed bound order then always selects 10. -/
theorem mediumTargetQuality_const (originalSizeKB : ℚ) :
    mediumTargetQuality originalSizeKB = 10 := by
  unfold mediumTargetQuality
  have h : (10 : ℤ) ≤ max 30 ⌊60 / originalSizeKB * 100⌋ :=
    le_trans (by norm_num) (le_max_left _ _)
  exact min_eq_left h

/-! ## Scenario runner (runBenchmarks, src/benchmark.js)

The environment gives, per scenario index, the ambient behaviour that
would be observed if that scenario executed.  An executed scenario has
three possible outcomes in the source loop (lines 361-413):

- it completes without failing: the loop continues with the failure flag
  clear;
- it fails (line 400 for a single-request error, lines 405-407 for a
  concurrent safetyTriggered timeout): previousScenarioFailed is set and
  every later iteration takes the skip branch at lines 364-367;
- it aborts the run: on the single-request SUCCESS path, line 383 reads
  singleResult.timings.totalProcessingTime.toFixed(2) with no guard, so a
  successful response whose timings object is absent, or whose
  totalProcessingTime field is absent, raises a TypeError that the
  enclosing try of runBenchmarks (line 431) catches, ending the run with
  no further executed or skipped scenario.  The concurrent path has no
  such unguarded read: its reporting sits inside the try of
  runConcurrentRequests, whose own catch converts a throw into
  safetyTriggered. -/

structure Scenario where
  name : String
  concurrency : Nat
  images : Nat
deriving Repr, DecidableEq

/-- The scenario list of runBenchmarks (lines 355-359 of src/benchmark.js). -/
def scenarios : List Scenario :=
  [⟨"Single request with 8 images", 1, 8⟩,
   ⟨"10 concurrent requests with 8 images each", 10, 8⟩,
   ⟨"50 concurrent requests with 8 images each", 50, 8⟩]

structure ScenarioBehavior where
  singleStart : ℚ
  singleEnd : ℚ
  singleHttp : HttpResult
  timeoutFirst : Bool
  outcomeOf : Nat → RequestOutcome

inductive ScenarioStep where
  | ok
  | failed
  | abort
deriving Repr, DecidableEq

/-- Outcome of executing one scenario.  Single-request path (lines
372-401): a failed outcome sets the failure flag; a successful outcome
with timings and totalProcessingTime present completes; a successful
outcome missing either aborts the whole run at line 383 (a reported
totalProcessingTime of 0 is a number and prints fine).  Concurrent path
(lines 403-408): the scenario fails exactly when safetyTriggered. -/
def scenarioStep (s : Scenario) (b : ScenarioBehavior) : ScenarioStep :=
  if s.concurrency = 1 then
    let singleResult := sendImageResizeRequest s.images b.singleStart b.singleEnd b.singleHttp
    if singleResult.success then
      match singleResult.timings with
      | none => .abort
      | some t =>
        match t.totalProcessingTime with
        | none => .abort
        | some _ => .ok
    else .failed
  else
    if (runConcurrentRequests s.concurrency b.timeoutFirst b.outcomeOf).safetyTriggered
    then .failed else .ok

/-- One console-visible event per scenario reached by the run: executed
(with its failure flag), begun but aborting the run at line 383, or
skipped with the message naming it (line 365). -/
inductive ScenarioEvent where
  | executed (name : String) (failed : Bool)
  | aborted (name : String)
  | skipped (name : String)
deriving Repr, DecidableEq

/-- The scenario loop of runBenchmarks (lines 361-413):
previousScenarioFailed starts false, a set flag makes every later
iteration skip with an identifying message, a failing scenario sets the
flag for the rest of the list, and an aborting scenario ends the run via
the outer catch at line 431: nothing after its event. -/
def runScenariosFrom (env : Nat → ScenarioBehavior) (prevFailed : Bool) (i : Nat) :
    List Scenario → List ScenarioEvent
  | [] => []
  | s :: rest =>
    if prevFailed then
      .skipped s.name :: runScenariosFrom env prevFailed (i + 1) rest
    else
      match scenarioStep s (env i) with
      | .abort => [.aborted s.name]
      | .failed => .executed s.name true :: runScenariosFrom env true (i + 1) rest
      | .ok => .executed s.name false :: runScenariosFrom env false (i + 1) rest

/-- runBenchmarks runs the loop over its fixed scenario list with the
failure flag initially clear. -/
def runBenchmarks (env : Nat → ScenarioBehavior) : List ScenarioEvent :=
  runScenariosFrom env false 0 scenarios

theorem runBenchmarks_eq (env : Nat → ScenarioBehavior) :
    runBenchmarks env = runScenariosFrom env false 0 scenarios := rfl

/-- The outcome scenario j of the list would have if executed, with env
indexed from i0. -/
def stepAt (env : Nat → ScenarioBehavior) : Nat → List Scenario → Nat → ScenarioStep
  | _, [], _ => .ok
  | i0, s :: _, 0 => scenarioStep s (env i0)
  | i0, _ :: rest, j + 1 => stepAt env (i0 + 1) rest j

theorem runScenariosFrom_skipped (env : Nat → ScenarioBehavior) (ss : List Scenario) :
    ∀ (i0 i : Nat),
      (runScenariosFrom env true i0 ss).get? i
        = (ss.get? i).map (fun s => ScenarioEvent.skipped s.name) := by
  induction ss with
  | nil => intro i0 i; simp [runScenariosFrom]
  | cons s rest ih =>
    intro i0 i
    cases i with
    | zero => rfl
    | succ j =>
      simpa [runScenariosFrom] using ih (i0 + 1) j

theorem runScenariosFrom_reach (env : Nat → ScenarioBehavior) (ss : List Scenario) :
    ∀ (i0 j : Nat), j < ss.length →
      (∀ k, k < j → stepAt env i0 ss k = .ok) →
      (runScenariosFrom env false i0 ss).get? j
        = (ss.get? j).map (fun s =>
            match stepAt env i0 ss j with
            | .ok => ScenarioEvent.executed s.name false
            | .failed => ScenarioEvent.executed s.name true
            | .abort => ScenarioEvent.aborted s.name) := by
  induction ss with
  | nil => intro i0 j hj; simp at hj
  | cons s rest ih =>
    intro i0 j hj hclean
    cases j with
    | zero =>
      have : stepAt env i0 (s :: rest) 0 = scenarioStep s (env i0) := rfl
      rw [List.get?_cons_zero, this]
      simp only [runScenariosFrom]
      cases scenarioStep s (env i0) <;>
        simp
    | succ m =>
      have hok : scenarioStep s (env i0) = .ok := hclean 0 (Nat.succ_pos m)
      simp only [runScenariosFrom, hok]
      simp only [if_neg (by simp : ¬(false = true)), List.get?_cons_succ]
      exact ih (i0 + 1) m (by simp at hj; omega)
        (fun k hk => hclean (k + 1) (by omega))

theorem runScenariosFrom_failpast (env : Nat → ScenarioBehavior) (ss : List Scenario) :
    ∀ (i0 i j : Nat), i < ss.length → j < i →
      (∀ k, k < j → stepAt env i0 ss k = .ok) →
      stepAt env i0 ss j = .failed →
      (runScenariosFrom env false i0 ss).get? i
        = (ss.get? i).map (fun s => ScenarioEvent.skipped s.name) := by
  induction ss with
  | nil => intro i0 i j hi; simp at hi
  | cons s rest ih =>
    intro i0 i j hi hji hclean hfail
    cases i with
    | zero => omega
    | succ m =>
      cases j with
      | zero =>
        have hsf : scenarioStep s (env i0) = .failed := hfail
        simp only [runScenariosFrom, hsf]
        simp only [if_neg (by simp : ¬(false = true)), List.get?_cons_succ]
        exact runScenariosFrom_skipped env rest (i0 + 1) m
      | succ j' =>
        have hok : scenarioStep s (env i0) = .ok := hclean 0 (Nat.succ_pos j')
        simp only [runScenariosFrom, hok]
        simp only [if_neg (by simp : ¬(false = true)), List.get?_cons_succ]
        exact ih (i0 + 1) m j' (by simp at hi; omega) (by omega)
          (fun k hk => hclean (k + 1) (by omega)) hfail

theorem runScenariosFrom_exec_inv (env : Nat → ScenarioBehavior) (ss : List Scenario) :
    ∀ (i0 i : Nat) (nm : String) (f : Bool),
      (runScenariosFrom env false i0 ss).get? i = some (.executed nm f) →
      ∀ k, k < i → stepAt env i0 ss k = .ok := by
  induction ss with
  | nil => intro i0 i nm f hexec; simp [runScenariosFrom] at hexec
  | cons s rest ih =>
    intro i0 i nm f hexec k hk
    cases i with
    | zero => omega
    | succ m =>
      cases hsf : scenarioStep s (env i0) with
      | abort =>
        simp only [runScenariosFrom, hsf] at hexec
        simp only [if_neg (by simp : ¬(false = true))] at hexec
        simp at hexec
      | failed =>
        simp only [runScenariosFrom, hsf] at hexec
        simp only [if_neg (by simp : ¬(false = true)), List.get?_cons_succ] at hexec
        rw [runScenariosFrom_skipped env rest (i0 + 1) m] at hexec
        cases hrm : rest.get? m with
        | none => rw [hrm] at hexec; simp at hexec
        | some s2 => rw [hrm] at hexec; simp at hexec
      | ok =>
        cases k with
        | zero => exact hsf
        | succ k' =>
          simp only [runScenariosFrom, hsf] at hexec
          simp only [if_neg (by simp : ¬(false = true)), List.get?_cons_succ] at hexec
          exact ih (i0 + 1) m nm f hexec k' (by omega)

/-- C1: in the scenario loop of runBenchmarks, over any ordered scenario
list: if the run reaches scenario j (every earlier scenario completed
without failing) and scenario j fails by request error or timeout, then
scenario j yields an executed event with the failure flag set and every
later scenario i yields a skipped event naming it, never executing; and
an executed event for scenario i+1 implies scenario i yielded an executed
event without failure, so scenario i+1 executes only if scenario i did
not fail.  An aborting scenario (successful single request missing
timings, line 383) ends the run instead, but such a scenario never counts
as failed, so both parts are unaffected. -/
theorem runBenchmarks_fail_fast (env : Nat → ScenarioBehavior) (ss : List Scenario)
    (i : Nat) (hi : i < ss.length) :
    (∀ j, j < i →
      (∀ k, k < j → stepAt env 0 ss k = .ok) →
      stepAt env 0 ss j = .failed →
      ((runScenariosFrom env false 0 ss).get? j
          = (ss.get? j).map (fun s => ScenarioEvent.executed s.name true))
      ∧ ((runScenariosFrom env false 0 ss).get? i
          = (ss.get? i).map (fun s => ScenarioEvent.skipped s.name)))
    ∧ (∀ (nm : String) (f : Bool), i + 1 < ss.length →
        (runScenariosFrom env false 0 ss).get? (i + 1) = some (.executed nm f) →
        (runScenariosFrom env false 0 ss).get? i
          = (ss.get? i).map (fun s => ScenarioEvent.executed s.name false)) := by
  constructor
  · intro j hji hclean hfail
    constructor
    · have h := runScenariosFrom_reach env ss 0 j (by omega) hclean
      rw [hfail] at h
      exact h
    · exact runScenariosFrom_failpast env ss 0 i j hi hji hclean hfail
  · intro nm f _ hexec
    have hall := runScenariosFrom_exec_inv env ss 0 (i + 1) nm f hexec
    have h := runScenariosFrom_reach env ss 0 i hi (fun k hk => hall k (by omega))
    rw [hall i (by omega)] at h
    exact h

def behaviorW : ScenarioBehavior :=
  { singleStart := 0, singleEnd := 5, singleHttp := .err "connect ECONNREFUSED",
    timeoutFirst := false,
    outcomeOf := fun _ => ⟨true, 1, none, none, none⟩ }

def envW : Nat → ScenarioBehavior := fun _ => behaviorW

/-- Witness for C1 at the fixed scenario list of runBenchmarks, with an
environment in which the single-request scenario fails by request error:
scenario 0 yields an executed event with the failure flag set and
scenario 1 is skipped with its name. -/
theorem runBenchmarks_fail_fast_witness :
    1 < scenarios.length
    ∧ stepAt envW 0 scenarios 0 = .failed
    ∧ ((runScenariosFrom envW false 0 scenarios).get? 0
        = (scenarios.get? 0).map (fun s => ScenarioEvent.executed s.name true))
    ∧ ((runScenariosFrom envW false 0 scenarios).get? 1
        = (scenarios.get? 1).map (fun s => ScenarioEvent.skipped s.name)) :=
  ⟨by decide, by decide,
   ((runBenchmarks_fail_fast envW scenarios 1 (by decide)).1 0 (by decide)
      (fun k hk => absurd hk (Nat.not_lt_zero k)) (by decide)).1,
   ((runBenchmarks_fail_fast envW scenarios 1 (by decide)).1 0 (by decide)
      (fun k hk => absurd hk (Nat.not_lt_zero k)) (by decide)).2⟩
